import Mathlib

/-!
Verification of the SPDX SBOM parser core (`sbom_parser_gui.py`).

The parsing core is shallowly embedded: Python strings become `String`,
decoded JSON documents become the inductive `Json` (with `Json.null` for
Python `None`), Python dicts become ordered key/value lists (`PyDict`),
and code that can raise becomes `Except PError`.  Exceptions raised while
decoding the top-level document (invalid JSON text, a top level that is
not an object, markup that is not well formed) are modelled by
`PError.malformedInput`; `ValueError` from the format dispatcher is
`PError.unsupportedFormat`; `AttributeError`/`TypeError` raised on
ill-typed field values inside an otherwise decodable document are
`PError.typeError`.
-/

namespace SpdxSbom

/-- Python `str.isspace` characters that `str.strip()` removes (ASCII range). -/
def pyIsSpace (c : Char) : Bool :=
  c == ' ' || c == '\t' || c == '\n' || c == '\r' || c == '\x0b' || c == '\x0c'

/-- Python `s.strip()`: drop leading and trailing whitespace. -/
def pyStrip (s : String) : String :=
  ⟨((s.data.dropWhile pyIsSpace).reverse.dropWhile pyIsSpace).reverse⟩

/-- Python `s.startswith(p)`. -/
def pyStartsWith (s p : String) : Bool :=
  p.data.isPrefixOf s.data

/-- Python `s.lower()` (ASCII case folding, as used on file extensions). -/
def pyLower (s : String) : String :=
  ⟨s.data.map Char.toLower⟩

/-- Python `s.upper()` (ASCII case folding, as used on reference categories). -/
def pyUpper (s : String) : String :=
  ⟨s.data.map Char.toUpper⟩

/-- Python `line.split(':', 1)[1]`: everything after the first colon
(callers guard with a `startswith` test on a tag that contains the colon,
so a colon is always present there; on a colon-free string this returns `""`). -/
def afterFirstColon (s : String) : String :=
  ⟨(s.data.dropWhile (fun c => !(c == ':'))).drop 1⟩

/-- Python `s05.split()` worker: split on whitespace runs, no empty tokens. -/
def pyWordsGo : List Char → List Char → List (List Char)
  | [], acc => if acc.isEmpty then [] else [acc.reverse]
  | c :: t, acc =>
    if pyIsSpace c then
      if acc.isEmpty then pyWordsGo t [] else acc.reverse :: pyWordsGo t []
    else
      pyWordsGo t (c :: acc)

/-- Python `s.split()` (no separator argument). -/
def pyWords (s : String) : List String :=
  (pyWordsGo s.data []).map fun w => ⟨w⟩

/-- Python `sep.join(xs)`. -/
def pyJoin (sep : String) : List String → String
  | [] => ""
  | x :: rest => rest.foldl (fun acc y => acc ++ sep ++ y) x

/-- Decoded JSON value (`json.load` output); `null` is Python `None`. -/
inductive Json where
  | null : Json
  | bool : Bool → Json
  | num : Int → Json
  | str : String → Json
  | arr : List Json → Json
  | obj : List (String × Json) → Json

/-- A Python dict with `Json` values, as an ordered key/value list
(`json.load` produces dicts with distinct keys; insertion order kept). -/
abbrev PyDict := List (String × Json)

/-- Python `d[k]`-style lookup on a dict. -/
def dictLookup : PyDict → String → Option Json
  | [], _ => none
  | (k', v) :: rest, k => if k' = k then some v else dictLookup rest k

/-- Python `d.get(k, default)`. -/
def dictGet (d : PyDict) (k : String) (default : Json) : Json :=
  (dictLookup d k).getD default

/-- Python `d[k] = v`: update in place if the key exists (keeping its
position), else append. -/
def dictSet : PyDict → String → Json → PyDict
  | [], k, v => [(k, v)]
  | (k', v') :: rest, k, v =>
    if k' = k then (k', v) :: rest else (k', v') :: dictSet rest k v

/-- Python truthiness of a decoded JSON value (`not raw`). -/
def jsonFalsy : Json → Bool
  | .null => true
  | .bool b => !b
  | .num n => n = 0
  | .str s => s = ""
  | .arr l => l.isEmpty
  | .obj l => l.isEmpty

/-- Error kinds the core can surface (see the module docstring for the
mapping from Python exceptions). -/
inductive PError where
  | unsupportedFormat : String → PError
  | malformedInput : PError
  | typeError : PError

/-- The ordered SPDX supplier-type tags tried by `clean_supplier`
(`('Organization:', 'Person:', 'Tool:')` in the source). -/
def supplierTags : List String := ["Organization:", "Person:", "Tool:"]

/-- The `for prefix in (...)` loop body of `clean_supplier`: first matching
tag wins, its remainder is stripped; no match falls through to `raw.strip()`. -/
def stripSupplierTag : List String → String → String
  | [], raw => pyStrip raw
  | p :: rest, raw =>
    if pyStartsWith raw p = true then pyStrip ⟨raw.data.drop p.data.length⟩
    else stripSupplierTag rest raw

/-- `clean_supplier` (source lines 25-32): strip SPDX supplier-type tags. -/
def clean_supplier (raw : String) : String :=
  if raw = "" ∨ raw = "N/A" then raw
  else stripSupplierTag supplierTags raw

/-- `clean_supplier` applied to an arbitrary decoded value, as the JSON
extractor does: Python returns falsy values unchanged (`if not raw`),
cleans strings, and raises `AttributeError` (`.startswith`) on any other
value. -/
def pyCleanSupplier : Json → Except PError Json
  | .str s => .ok (.str (clean_supplier s))
  | v => if jsonFalsy v then .ok v else .error .typeError

/-- Category normalisation inside `extract_package_manager_locator`:
`ref.get('referenceCategory', '').upper().replace('_', '-')`. -/
def normCat (c : String) : String :=
  ⟨(pyUpper c).data.map fun ch => if ch = '_' then '-' else ch⟩

/-- The `for ref in external_refs` loop of `extract_package_manager_locator`:
collect the `referenceLocator` values (default `'N/A'`) of refs whose
normalised category is `'PACKAGE-MANAGER'`; a ref that is not a dict, or a
category value that is not a string, raises `AttributeError`. -/
def collectLocators : List Json → Except PError (List Json)
  | [] => .ok []
  | .obj kvs :: rest =>
    match dictGet kvs "referenceCategory" (.str "") with
    | .str c =>
      if normCat c = "PACKAGE-MANAGER" then
        match collectLocators rest with
        | .ok tl => .ok (dictGet kvs "referenceLocator" (.str "N/A") :: tl)
        | .error e => .error e
      else collectLocators rest
    | _ => .error .typeError
  | _ :: _ => .error .typeError

/-- Check that every collected locator is a string (Python `'; '.join`
raises `TypeError` otherwise). -/
def strList : List Json → Option (List String)
  | [] => some []
  | .str s :: rest =>
    match strList rest with
    | some ss => some (s :: ss)
    | none => none
  | _ :: _ => none

/-- `extract_package_manager_locator` (source lines 35-42) on an arbitrary
decoded value.  Iterating a non-sequence raises `TypeError`; iterating a
non-empty string or dict yields non-dict elements whose `.get` raises
`AttributeError`; an empty string or dict iterates to nothing and yields
the sentinel. -/
def extract_package_manager_locator (external_refs : Json) : Except PError Json :=
  match external_refs with
  | .arr refs =>
    match collectLocators refs with
    | .ok locs =>
      if locs.isEmpty then .ok (.str "N/A")
      else
        match strList locs with
        | some ss => .ok (.str (pyJoin "; " ss))
        | none => .error .typeError
    | .error e => .error e
  | .str "" => .ok (.str "N/A")
  | .obj [] => .ok (.str "N/A")
  | _ => .error .typeError

/-- A Python `for` loop that builds a list, propagating the first raised
exception (used for the package loops of the JSON and XML extractors). -/
def pyForCollect (f : α → Except PError β) : List α → Except PError (List β)
  | [] => .ok []
  | x :: rest =>
    match f x with
    | .ok y =>
      match pyForCollect f rest with
      | .ok ys => .ok (y :: ys)
      | .error e => .error e
    | .error e => .error e

/-- The loop body of `parse_spdx_json` (source lines 50-64): one package
object becomes one ten-key component dict; a non-dict package raises
`AttributeError` at its first `.get`. -/
def jsonPackageRecord (package : Json) : Except PError PyDict :=
  match package with
  | .obj kvs =>
    match pyCleanSupplier (dictGet kvs "supplier" (.str "N/A")) with
    | .ok supplier =>
      match extract_package_manager_locator (dictGet kvs "externalRefs" (.arr [])) with
      | .ok pml =>
        .ok [("SPDX_ID", dictGet kvs "SPDXID" (.str "N/A")),
             ("Name", dictGet kvs "name" (.str "N/A")),
             ("Version", dictGet kvs "versionInfo" (.str "N/A")),
             ("Supplier", supplier),
             ("License_Declared", dictGet kvs "licenseDeclared" (.str "N/A")),
             ("Copyright_Text", dictGet kvs "copyrightText" (.str "N/A")),
             ("Download_Location", dictGet kvs "downloadLocation" (.str "N/A")),
             ("Homepage", dictGet kvs "homepage" (.str "N/A")),
             ("Description", dictGet kvs "description" (.str "N/A")),
             ("Package_Manager_Locator", pml)]
      | .error e => .error e
    | .error e => .error e
  | _ => .error .typeError

/-- `parse_spdx_json` (source lines 45-65).  The argument is the result of
`json.load` on the file (`none` when the text is not valid JSON, which
raises).  A top level that is not an object raises at
`sbom_data.get('packages', [])`; both decode-phase failures are
`malformedInput`.  A `packages` value that is not a list raises while
iterating (an empty string or dict iterates to nothing). -/
def parse_spdx_json : Option Json → Except PError (List PyDict)
  | none => .error .malformedInput
  | some (.obj kvs) =>
    match dictGet kvs "packages" (.arr []) with
    | .arr packages => pyForCollect jsonPackageRecord packages
    | .str "" => .ok []
    | .obj [] => .ok []
    | _ => .error .typeError
  | some _ => .error .malformedInput

/-- One accumulated `ExternalRef:` line of the tag-value extractor:
category, reference type, locator (always strings, from `line.split()`). -/
abbrev TvRef := String × String × String

/-- The dict the tag-value extractor appends to `current_ext_refs`
(source lines 122-126). -/
def tvRefJson (r : TvRef) : Json :=
  .obj [("referenceCategory", .str r.1),
        ("referenceType", .str r.2.1),
        ("referenceLocator", .str r.2.2)]

/-- The fresh `current_package` dict opened by a `PackageName:` line
(source lines 86-97): all fields sentinel-filled except the name. -/
def freshTvRecord (name : String) : PyDict :=
  [("SPDX_ID", .str "N/A"),
   ("Name", .str name),
   ("Version", .str "N/A"),
   ("Supplier", .str "N/A"),
   ("License_Declared", .str "N/A"),
   ("Copyright_Text", .str "N/A"),
   ("Download_Location", .str "N/A"),
   ("Homepage", .str "N/A"),
   ("Description", .str "N/A"),
   ("Package_Manager_Locator", .str "N/A")]

/-- The literally ordered `tag_map` of `parse_spdx_tv` (source lines
101-110); the first matching tag wins. -/
def tag_map : List (String × String) :=
  [("SPDXID:", "SPDX_ID"),
   ("PackageVersion:", "Version"),
   ("PackageSupplier:", "Supplier"),
   ("PackageLicenseDeclared:", "License_Declared"),
   ("PackageCopyrightText:", "Copyright_Text"),
   ("PackageDownloadLocation:", "Download_Location"),
   ("PackageHomePage:", "Homepage"),
   ("PackageDescription:", "Description")]

/-- The `for tag, key in tag_map.items()` loop (source lines 111-117):
on the first matching tag, store the text after the first colon, trimmed,
cleaning the supplier field; `break` afterwards. -/
def applyTagMap (package : PyDict) (line : String) : List (String × String) → PyDict
  | [] => package
  | (tag, key) :: rest =>
    if pyStartsWith line tag = true then
      let value := pyStrip (afterFirstColon line)
      let value := if key = "Supplier" then clean_supplier value else value
      dictSet package key (.str value)
    else applyTagMap package line rest

/-- The `ExternalRef:` branch (source lines 119-126): whitespace-split the
text after the first colon; with at least three tokens, record
(category, type, locator); otherwise ignore the line. -/
def tvExternalRef (line : String) (refs : List TvRef) : List TvRef :=
  match pyWords (pyStrip (afterFirstColon line)) with
  | c :: t :: l :: _ => refs ++ [(c, t, l)]
  | _ => refs

/-- The scan state of `parse_spdx_tv`: finished components, the open
package (if any), and its accumulated external refs. -/
structure TvState where
  components : List PyDict
  current : Option PyDict
  refs : List TvRef

/-- Close the open package: aggregate its refs into the locator field
(source lines 82-84 and 128-130). -/
def tvFinalize (package : PyDict) (refs : List TvRef) : Except PError PyDict :=
  match extract_package_manager_locator (.arr (refs.map tvRefJson)) with
  | .ok loc => .ok (dictSet package "Package_Manager_Locator" loc)
  | .error e => .error e

/-- One iteration of the `for line in lines` loop of `parse_spdx_tv`
(source lines 76-126). -/
def tvLine (st : TvState) (rawLine : String) : Except PError TvState :=
  let line := pyStrip rawLine
  if line = "" ∨ pyStartsWith line "#" = true then .ok st
  else if pyStartsWith line "PackageName:" = true then
    match st.current with
    | some package =>
      match tvFinalize package st.refs with
      | .ok done =>
        .ok ⟨st.components ++ [done],
             some (freshTvRecord (pyStrip (afterFirstColon line))), []⟩
      | .error e => .error e
    | none =>
      .ok ⟨st.components, some (freshTvRecord (pyStrip (afterFirstColon line))), []⟩
  else
    match st.current with
    | none => .ok st
    | some package =>
      let package := applyTagMap package line tag_map
      let refs :=
        if pyStartsWith line "ExternalRef:" = true then tvExternalRef line st.refs
        else st.refs
      .ok ⟨st.components, some package, refs⟩

/-- `parse_spdx_tv` (source lines 68-133), over the file's lines. -/
def parse_spdx_tv (lines : List String) : Except PError (List PyDict) :=
  match lines.foldlM tvLine ⟨[], none, []⟩ with
  | .ok st =>
    match st.current with
    | some package =>
      match tvFinalize package st.refs with
      | .ok done => .ok (st.components ++ [done])
      | .error e => .error e
    | none => .ok st.components
  | .error e => .error e

/-- An `xml.etree.ElementTree` element: tag, text (Python `None` for an
element with no text, e.g. an empty element), and child elements. -/
inductive XmlElement where
  | mk : String → Option String → List XmlElement → XmlElement

/-- The element's tag. -/
def XmlElement.tag : XmlElement → String
  | .mk t _ _ => t

/-- The element's text (`none` is Python `None`). -/
def XmlElement.text : XmlElement → Option String
  | .mk _ t _ => t

/-- The element's direct children. -/
def XmlElement.children : XmlElement → List XmlElement
  | .mk _ _ c => c

/-- `element.findall(tag)` for a plain tag: matching direct children. -/
def xmlFindAll (e : XmlElement) (tag : String) : List XmlElement :=
  e.children.filter fun c => c.tag = tag

/-- `element.find(tag)` for a plain tag: first matching direct child. -/
def xmlFind (e : XmlElement) (tag : String) : Option XmlElement :=
  (xmlFindAll e tag).head?

/-- Python `a or b` on lists: `a` if non-empty, else `b`. -/
def pyOrList (a b : List α) : List α :=
  if a.isEmpty then b else a

/-- Namespace detection of `parse_spdx_xml` (source line 139):
`root.tag.split('\x7d')[0] + '\x7d'` when the tag starts with `'\x7b'`. -/
def xmlNs (root : XmlElement) : String :=
  if pyStartsWith root.tag "\x7b" = true then
    ⟨root.tag.data.takeWhile fun c => !(c == '\x7d')⟩ ++ "\x7d"
  else ""

/-- The nested `get_text` of `parse_spdx_xml` (source lines 143-145):
trimmed child text, or the sentinel when the child is absent or its text
is `None` or empty. -/
def xmlGetText (ns : String) (package : XmlElement) (tag : String) : String :=
  match xmlFind package (ns ++ tag) with
  | some el =>
    match el.text with
    | some t => if t = "" then "N/A" else pyStrip t
    | none => "N/A"
  | none => "N/A"

/-- A reference sub-field (source lines 153-154):
`cat.text.strip() if cat is not None else ''`.  An absent child yields
`''`; a present child whose text is `None` raises `AttributeError` at
`None.strip()`. -/
def xmlRefText : Option XmlElement → Except PError String
  | some el =>
    match el.text with
    | some t => .ok (pyStrip t)
    | none => .error .typeError
  | none => .ok ""

/-- The `for ref in ...` loop of `parse_spdx_xml` (source lines 148-155):
each reference element becomes a category/locator dict. -/
def xmlRefDict (ns : String) (ref : XmlElement) : Except PError PyDict :=
  match xmlRefText (xmlFind ref (ns ++ "referenceCategory")) with
  | .ok cat =>
    match xmlRefText (xmlFind ref (ns ++ "referenceLocator")) with
    | .ok loc => .ok [("referenceCategory", .str cat), ("referenceLocator", .str loc)]
    | .error e => .error e
  | .error e => .error e

/-- The per-package body of `parse_spdx_xml` (source lines 142-169). -/
def xmlPackageRecord (ns : String) (package : XmlElement) : Except PError PyDict :=
  match pyForCollect (xmlRefDict ns)
      (pyOrList (xmlFindAll package (ns ++ "externalRefs"))
                (xmlFindAll package (ns ++ "externalRef"))) with
  | .ok refs =>
    match extract_package_manager_locator (.arr (refs.map Json.obj)) with
    | .ok pml =>
      .ok [("SPDX_ID", .str (xmlGetText ns package "SPDXID")),
           ("Name", .str (xmlGetText ns package "name")),
           ("Version", .str (xmlGetText ns package "versionInfo")),
           ("Supplier", .str (clean_supplier (xmlGetText ns package "supplier"))),
           ("License_Declared", .str (xmlGetText ns package "licenseDeclared")),
           ("Copyright_Text", .str (xmlGetText ns package "copyrightText")),
           ("Download_Location", .str (xmlGetText ns package "downloadLocation")),
           ("Homepage", .str (xmlGetText ns package "homepage")),
           ("Description", .str (xmlGetText ns package "description")),
           ("Package_Manager_Locator", pml)]
    | .error e => .error e
  | .error e => .error e

/-- `parse_spdx_xml` (source lines 136-170).  The argument is the parsed
element tree's root (`none` when the document is not well-formed markup,
which raises at `ET.parse`). -/
def parse_spdx_xml : Option XmlElement → Except PError (List PyDict)
  | none => .error .malformedInput
  | some root =>
    let ns := xmlNs root
    pyForCollect (xmlPackageRecord ns)
      (pyOrList (xmlFindAll root (ns ++ "packages"))
                (xmlFindAll root (ns ++ "package")))

/-- Python `s.rfind(c)`: index of the last occurrence, `-1` if absent. -/
def pyRFind (c : Char) (cs : List Char) : Int :=
  (cs.foldl (fun (acc : Int × Int) d =>
    (if d = c then acc.2 else acc.1, acc.2 + 1)) (-1, 0)).1

/-- The extension part of `os.path.splitext(p)` (posix rules): the suffix
from the last dot, provided it lies after the last separator and the
basename is not entirely dots up to it. -/
def pySplitextExt (p : String) : String :=
  let cs := p.data
  let sepIndex := pyRFind '/' cs
  let dotIndex := pyRFind '.' cs
  if sepIndex < dotIndex then
    if ((cs.drop (sepIndex + 1).toNat).take (dotIndex - (sepIndex + 1)).toNat).any
        (fun c => !(c = '.')) then
      ⟨cs.drop dotIndex.toNat⟩
    else ""
  else ""

/-- The three decodings of one input file that the extractors consume:
its lines, its `json.load` result (`none` = not valid JSON), and its
`ET.parse` root (`none` = not well-formed markup). -/
structure FileContent where
  lines : List String
  json : Option Json
  xml : Option XmlElement

/-- `parse_sbom` (source lines 173-182): dispatch on the lower-cased
extension; anything unrecognised raises `ValueError` naming it. -/
def parse_sbom (path : String) (content : FileContent) : Except PError (List PyDict) :=
  let ext := pyLower (pySplitextExt path)
  if ext = ".json" then parse_spdx_json content.json
  else if ext = ".spdx" ∨ ext = ".tv" then parse_spdx_tv content.lines
  else if ext = ".xml" then parse_spdx_xml content.xml
  else .error (.unsupportedFormat ext)

/-- A component record as fixed in the data model: the ten text fields in
the canonical column order (the ten-key dicts built by the extractors,
with the keys promoted to named fields). -/
structure ComponentRecord where
  spdxId : String
  name : String
  version : String
  supplier : String
  licenseDeclared : String
  copyrightText : String
  downloadLocation : String
  homepage : String
  description : String
  packageManagerLocator : String

/-- The `fieldnames` list of `save_to_csv` (source lines 186-190): the
canonical column order. -/
def fieldnames : List String :=
  ["SPDX_ID", "Name", "Version", "Supplier",
   "License_Declared", "Copyright_Text", "Download_Location",
   "Homepage", "Description", "Package_Manager_Locator"]

/-- The row `csv.DictWriter` extracts from one record: its ten field
values in `fieldnames` order. -/
def recordRow (r : ComponentRecord) : List String :=
  [r.spdxId, r.name, r.version, r.supplier,
   r.licenseDeclared, r.copyrightText, r.downloadLocation,
   r.homepage, r.description, r.packageManagerLocator]

/-- `QUOTE_MINIMAL`: a field is quoted iff it contains the delimiter, the
quote character, or a line-terminator character. -/
def csvNeedsQuote (cs : List Char) : Bool :=
  cs.any fun c => c == ',' || c == '"' || c == '\r' || c == '\n'

/-- Double every quote character (the writer's quote escaping). -/
def csvEscQ : List Char → List Char
  | [] => []
  | c :: t => if c = '"' then '"' :: '"' :: csvEscQ t else c :: csvEscQ t

/-- One serialised field: quoted with doubled inner quotes when needed,
verbatim otherwise. -/
def csvField (s : String) : List Char :=
  if csvNeedsQuote s.data then '"' :: (csvEscQ s.data ++ ['"']) else s.data

/-- Join serialised fields with the `,` delimiter. -/
def csvJoinFields : List (List Char) → List Char
  | [] => []
  | [f] => f
  | f :: rest => f ++ ',' :: csvJoinFields rest

/-- One serialised row, terminated by the default `\r\n`. -/
def csvRowChars (fields : List String) : List Char :=
  csvJoinFields (fields.map csvField) ++ ['\r', '\n']

/-- `save_to_csv` (source lines 185-194): a header row with `fieldnames`,
then one row per record in input order (the `csv.DictWriter` default
dialect: `,` delimiter, `"` quote, minimal quoting, `\r\n` terminator). -/
def save_to_csv (components : List ComponentRecord) : String :=
  ⟨(fieldnames :: components.map recordRow).foldr
    (fun row acc => csvRowChars row ++ acc) []⟩

/-- Reader state for the delimited format: inside a plain field, inside a
quoted field, or just past a closing quote (where a doubled quote
continues the field). -/
inductive CsvMode where
  | plain : CsvMode
  | quoted : CsvMode
  | afterQuote : CsvMode

/-- A standard reader for the dialect written by `save_to_csv` (models
re-reading the delimited file with `csv.reader` defaults).  The scan state
is the mode plus, when a row is underway, the reversed current field and
the reversed finished fields of the row. -/
def csvAux : List Char → CsvMode → Option (List Char × List String) → List (List String)
  | [], _, none => []
  | [], _, some (facc, racc) => [(((⟨facc.reverse⟩ : String) :: racc).reverse)]
  | c :: t, .plain, none =>
    if c = '\r' ∨ c = '\n' then csvAux t .plain none
    else if c = ',' then csvAux t .plain (some ([], [""]))
    else if c = '"' then csvAux t .quoted (some ([], []))
    else csvAux t .plain (some ([c], []))
  | c :: t, .plain, some (facc, racc) =>
    if c = ',' then csvAux t .plain (some ([], (⟨facc.reverse⟩ : String) :: racc))
    else if c = '\r' ∨ c = '\n' then
      (((⟨facc.reverse⟩ : String) :: racc).reverse) :: csvAux t .plain none
    else if c = '"' then
      if facc.isEmpty then csvAux t .quoted (some ([], racc))
      else csvAux t .plain (some ('"' :: facc, racc))
    else csvAux t .plain (some (c :: facc, racc))
  | c :: t, .quoted, some (facc, racc) =>
    if c = '"' then csvAux t .afterQuote (some (facc, racc))
    else csvAux t .quoted (some (c :: facc, racc))
  | c :: t, .afterQuote, some (facc, racc) =>
    if c = '"' then csvAux t .quoted (some ('"' :: facc, racc))
    else if c = ',' then csvAux t .plain (some ([], (⟨facc.reverse⟩ : String) :: racc))
    else if c = '\r' ∨ c = '\n' then
      (((⟨facc.reverse⟩ : String) :: racc).reverse) :: csvAux t .plain none
    else csvAux t .plain (some (c :: facc, racc))
  | _ :: t, .quoted, none => csvAux t .quoted none
  | _ :: t, .afterQuote, none => csvAux t .plain none

/-- Re-read a delimited file into its rows of fields. -/
def csvParse (s : String) : List (List String) :=
  csvAux s.data .plain none

/-- Written from the spec (4.1): the supplier normalizer's contract —
return empty or sentinel input unchanged; strip the first matching
supplier-type tag and trim; otherwise trim. -/
def clean_supplier_spec (raw : String) : String :=
  if raw = "" ∨ raw = "N/A" then raw
  else if pyStartsWith raw "Organization:" = true then
    pyStrip ⟨raw.data.drop "Organization:".data.length⟩
  else if pyStartsWith raw "Person:" = true then
    pyStrip ⟨raw.data.drop "Person:".data.length⟩
  else if pyStartsWith raw "Tool:" = true then
    pyStrip ⟨raw.data.drop "Tool:".data.length⟩
  else pyStrip raw

/-- Written from the spec (4.2): the aggregator's contract over
(category, locator) pairs — keep refs whose normalised category is
`PACKAGE-MANAGER`, join their locators in order with `"; "`, sentinel
when none survive. -/
def aggregate_locators_spec (refs : List (String × String)) : String :=
  let kept := refs.filterMap fun r =>
    if normCat r.1 = "PACKAGE-MANAGER" then some r.2 else none
  if kept.isEmpty then "N/A" else pyJoin "; " kept

/-- A decoded reference entry whose category reads back as the string
`p.1` (with default `""`) and whose locator reads back as the string
`p.2` (with default `"N/A"`). -/
def refMatches (r : Json) (p : String × String) : Prop :=
  ∃ kvs, r = Json.obj kvs
    ∧ dictGet kvs "referenceCategory" (.str "") = .str p.1
    ∧ dictGet kvs "referenceLocator" (.str "N/A") = .str p.2

/-- A reference entry given to the aggregator as a category/locator dict. -/
def refPairJson (p : String × String) : Json :=
  .obj [("referenceCategory", .str p.1), ("referenceLocator", .str p.2)]

/-- Is this lookup result a present string value? -/
def isStrVal : Option Json → Bool
  | some (.str _) => true
  | _ => false

/-- All ten canonical keys are present in the dict. -/
def fieldsPresent (r : PyDict) : Bool :=
  fieldnames.all fun k => (dictLookup r k).isSome

/-- All ten canonical keys are present and bound to string values
(present and non-null). -/
def fieldsAllStr (r : PyDict) : Bool :=
  fieldnames.all fun k => isStrVal (dictLookup r k)

/-- The nine scalar package keys the JSON extractor reads directly. -/
def jsonScalarKeys : List String :=
  ["SPDXID", "name", "versionInfo", "supplier", "licenseDeclared",
   "copyrightText", "downloadLocation", "homepage", "description"]

/-- Every recognised scalar field of the package object is absent or a
string (reading it with the extractor's `"N/A"` default gives a string). -/
def pkgScalarsStr : Json → Bool
  | .obj kvs => jsonScalarKeys.all fun k => isStrVal (some (dictGet kvs k (.str "N/A")))
  | _ => true

/-- Every package of the document binds its recognised scalar fields to
strings when it binds them at all. -/
def jsonScalarsWellTyped (kvs : List (String × Json)) : Bool :=
  match dictGet kvs "packages" (.arr []) with
  | .arr packages => packages.all pkgScalarsStr
  | _ => true

/-- The open package of the scan state, when present, has all ten fields
bound to strings. -/
def tvRecOk : Option PyDict → Bool
  | none => true
  | some p => fieldsAllStr p

/-- Scan-state invariant of the tag-value extractor: every finished and
open record has all ten fields bound to strings. -/
def tvInv (st : TvState) : Bool :=
  st.components.all fieldsAllStr && tvRecOk st.current

/-- The aggregate the tag-value extractor's accumulated refs produce. -/
def tvAgg (refs : List TvRef) : String :=
  aggregate_locators_spec (refs.map fun r => (r.1, r.2.2))

/-- A JSON document whose one package binds `name` to an explicit null. -/
def nullNameDoc : Json :=
  .obj [("packages", .arr [.obj [("name", Json.null)]])]

/-- The record the JSON extractor builds from `nullNameDoc`: the `Name`
field carries the null through. -/
def nullNameRecord : PyDict :=
  [("SPDX_ID", .str "N/A"), ("Name", Json.null), ("Version", .str "N/A"),
   ("Supplier", .str "N/A"), ("License_Declared", .str "N/A"),
   ("Copyright_Text", .str "N/A"), ("Download_Location", .str "N/A"),
   ("Homepage", .str "N/A"), ("Description", .str "N/A"),
   ("Package_Manager_Locator", .str "N/A")]

/-- A minimal well-typed JSON document with one named package. -/
def strNameDoc : List (String × Json) :=
  [("packages", Json.arr [Json.obj [("name", Json.str "pkg-a")]])]

/-- The record the JSON extractor builds from `strNameDoc`. -/
def strNameRecord : PyDict :=
  [("SPDX_ID", .str "N/A"), ("Name", .str "pkg-a"), ("Version", .str "N/A"),
   ("Supplier", .str "N/A"), ("License_Declared", .str "N/A"),
   ("Copyright_Text", .str "N/A"), ("Download_Location", .str "N/A"),
   ("Homepage", .str "N/A"), ("Description", .str "N/A"),
   ("Package_Manager_Locator", .str "N/A")]

/-- A minimal XML document with one named package. -/
def strNameXml : XmlElement :=
  .mk "spdx" none [.mk "packages" none [.mk "name" (some "pkg-x") []]]

/-- The record the XML extractor builds from `strNameXml`. -/
def strNameXmlRecord : PyDict :=
  [("SPDX_ID", .str "N/A"), ("Name", .str "pkg-x"), ("Version", .str "N/A"),
   ("Supplier", .str "N/A"), ("License_Declared", .str "N/A"),
   ("Copyright_Text", .str "N/A"), ("Download_Location", .str "N/A"),
   ("Homepage", .str "N/A"), ("Description", .str "N/A"),
   ("Package_Manager_Locator", .str "N/A")]

/-- A tag-value input with two consecutive `PackageName:` lines, the first
package fully populated and carrying an external ref. -/
def twoPackageLines : List String :=
  ["PackageName: pkg-one", "SPDXID: SPDXRef-1", "PackageVersion: 1.2.3",
   "PackageSupplier: Organization: Acme",
   "ExternalRef: PACKAGE-MANAGER purl pkg:npm/a@1.0",
   "PackageName: pkg-two"]

/-- The first record `twoPackageLines` produces. -/
def twoPackageFirst : PyDict :=
  [("SPDX_ID", .str "SPDXRef-1"), ("Name", .str "pkg-one"),
   ("Version", .str "1.2.3"), ("Supplier", .str "Acme"),
   ("License_Declared", .str "N/A"), ("Copyright_Text", .str "N/A"),
   ("Download_Location", .str "N/A"), ("Homepage", .str "N/A"),
   ("Description", .str "N/A"),
   ("Package_Manager_Locator", .str "pkg:npm/a@1.0")]

lemma collectLocators_matched {rs : List Json} {ps : List (String × String)}
    (h : List.Forall₂ refMatches rs ps) :
    collectLocators rs =
      .ok (ps.filterMap fun p =>
        if normCat p.1 = "PACKAGE-MANAGER" then some (Json.str p.2) else none) := by
  induction h with
  | nil => rfl
  | @cons r p rs' ps' hr _ ih =>
    obtain ⟨kvs, rfl, hc, hl⟩ := hr
    by_cases hpm : normCat p.1 = "PACKAGE-MANAGER" <;>
      simp [collectLocators, hc, hl, hpm, ih, List.filterMap_cons]

lemma strList_map_str (l : List String) : strList (l.map Json.str) = some l := by
  induction l with
  | nil => rfl
  | cons x t ih => simp [strList, ih]

lemma keptLocators_map_str (ps : List (String × String)) :
    (ps.filterMap fun p =>
        if normCat p.1 = "PACKAGE-MANAGER" then some (Json.str p.2) else none)
      = (ps.filterMap fun p =>
        if normCat p.1 = "PACKAGE-MANAGER" then some p.2 else none).map Json.str := by
  induction ps with
  | nil => rfl
  | cons p t ih =>
    by_cases hpm : normCat p.1 = "PACKAGE-MANAGER" <;>
      simp [List.filterMap_cons, hpm, ih]

lemma extract_pml_matched {rs : List Json} {ps : List (String × String)}
    (h : List.Forall₂ refMatches rs ps) :
    extract_package_manager_locator (.arr rs) =
      .ok (.str (aggregate_locators_spec ps)) := by
  have hc := collectLocators_matched h
  rw [keptLocators_map_str] at hc
  cases hke : ps.filterMap fun p =>
      if normCat p.1 = "PACKAGE-MANAGER" then some p.2 else none with
  | nil =>
    rw [hke] at hc
    simp [extract_package_manager_locator, hc, aggregate_locators_spec, hke]
  | cons x xs =>
    rw [hke] at hc
    simp only [extract_package_manager_locator, hc, strList_map_str]
    simp [aggregate_locators_spec, hke]

lemma refPairJson_matches (refs : List (String × String)) :
    List.Forall₂ refMatches (refs.map refPairJson) refs := by
  induction refs with
  | nil => exact .nil
  | cons p t ih => exact .cons ⟨_, rfl, rfl, rfl⟩ ih

lemma tvRefJson_matches (refs : List TvRef) :
    List.Forall₂ refMatches (refs.map tvRefJson)
      (refs.map fun r => (r.1, r.2.2)) := by
  induction refs with
  | nil => exact .nil
  | cons p t ih => exact .cons ⟨_, rfl, rfl, rfl⟩ ih

lemma pml_ok_str (v : Json) :
    ∀ w, extract_package_manager_locator v = .ok w → ∃ s, w = .str s := by
  unfold extract_package_manager_locator
  split
  · split
    · split
      · intro w hw
        exact ⟨"N/A", (Except.ok.inj hw).symm⟩
      · split
        · intro w hw
          exact ⟨_, (Except.ok.inj hw).symm⟩
        · intro w hw
          cases hw
    · intro w hw
      cases hw
  · intro w hw
    exact ⟨"N/A", (Except.ok.inj hw).symm⟩
  · intro w hw
    exact ⟨"N/A", (Except.ok.inj hw).symm⟩
  · intro w hw
    cases hw

lemma isStrVal_some {v : Json} (h : isStrVal (some v) = true) : ∃ s, v = .str s := by
  cases v with
  | str s => exact ⟨s, rfl⟩
  | null => cases h
  | bool b => cases h
  | num n => cases h
  | arr l => cases h
  | obj l => cases h

lemma pyForCollect_mem {α β : Type} {f : α → Except PError β} :
    ∀ {l : List α} {ys : List β}, pyForCollect f l = .ok ys →
      ∀ y ∈ ys, ∃ x ∈ l, f x = .ok y := by
  intro l
  induction l with
  | nil =>
    intro ys h y hy
    obtain rfl : ([] : List β) = ys := Except.ok.inj h
    cases hy
  | cons x t ih =>
    intro ys h y hy
    simp only [pyForCollect] at h
    cases hf : f x with
    | error e => rw [hf] at h; cases h
    | ok z =>
      rw [hf] at h
      cases ht : pyForCollect f t with
      | error e => rw [ht] at h; cases h
      | ok zs =>
        rw [ht] at h
        obtain rfl : z :: zs = ys := Except.ok.inj h
        rcases List.mem_cons.mp hy with rfl | hy'
        · exact ⟨x, List.mem_cons_self x t, hf⟩
        · obtain ⟨x', hx', hfx'⟩ := ih ht y hy'
          exact ⟨x', List.mem_cons_of_mem x hx', hfx'⟩

lemma dictLookup_dictSet (d : PyDict) (k : String) (v : Json) (key : String) :
    dictLookup (dictSet d k v) key =
      if k = key then some v else dictLookup d key := by
  induction d with
  | nil =>
    by_cases hk : k = key <;> simp [dictSet, dictLookup, hk]
  | cons kv rest ih =>
    obtain ⟨k0, v0⟩ := kv
    by_cases h0 : k0 = k
    · subst h0
      by_cases hk : k0 = key <;> simp [dictSet, dictLookup, hk]
    · by_cases hk : k0 = key
      · subst hk
        have : ¬k = k0 := fun h => h0 h.symm
        simp [dictSet, dictLookup, h0, this]
      · simp [dictSet, dictLookup, h0, hk, ih]

lemma fieldsAllStr_lookup {r : PyDict} (h : fieldsAllStr r = true)
    {k : String} (hk : k ∈ fieldnames) : isStrVal (dictLookup r k) = true := by
  exact List.all_eq_true.mp h k hk

lemma fieldsAllStr_dictSet {r : PyDict} (h : fieldsAllStr r = true)
    (k : String) (s : String) :
    fieldsAllStr (dictSet r k (.str s)) = true := by
  refine List.all_eq_true.mpr fun key hkey => ?_
  rw [dictLookup_dictSet]
  by_cases hk : k = key
  · simp [hk, isStrVal]
  · simp only [if_neg hk]
    exact fieldsAllStr_lookup h hkey

lemma fieldsAllStr_applyTagMap :
    ∀ (tags : List (String × String)) {r : PyDict} (line : String),
      fieldsAllStr r = true → fieldsAllStr (applyTagMap r line tags) = true := by
  intro tags
  induction tags with
  | nil => intro r line h; exact h
  | cons tk rest ih =>
    intro r line h
    obtain ⟨tag, key⟩ := tk
    by_cases ht : pyStartsWith line tag = true
    · simp only [applyTagMap, if_pos ht]
      exact fieldsAllStr_dictSet h _ _
    · simp only [applyTagMap, if_neg ht]
      exact ih line h

lemma fieldsAllStr_fresh (name : String) :
    fieldsAllStr (freshTvRecord name) = true := rfl

lemma tvFinalize_eq (package : PyDict) (refs : List TvRef) :
    tvFinalize package refs =
      .ok (dictSet package "Package_Manager_Locator" (.str (tvAgg refs))) := by
  unfold tvFinalize tvAgg
  rw [extract_pml_matched (tvRefJson_matches refs)]

lemma tvFinalize_allStr {package : PyDict} (h : fieldsAllStr package = true)
    (refs : List TvRef) :
    fieldsAllStr (dictSet package "Package_Manager_Locator" (.str (tvAgg refs)))
      = true :=
  fieldsAllStr_dictSet h _ _

lemma tvInv_init : tvInv ⟨[], none, []⟩ = true := rfl

lemma tvLine_inv {st : TvState} {line : String} {st' : TvState}
    (h : tvLine st line = .ok st') (hinv : tvInv st = true) : tvInv st' = true := by
  have hsplit := hinv
  simp only [tvInv, Bool.and_eq_true] at hsplit
  obtain ⟨hcomp, hcur⟩ := hsplit
  simp only [tvLine] at h
  split at h
  · obtain rfl := Except.ok.inj h
    exact hinv
  · split at h
    · -- a PackageName line
      split at h
      · -- with an open package: it is finalized and a fresh one opened
        rename_i package hpkg
        split at h
        · rename_i done hdone
          obtain rfl := Except.ok.inj h
          rw [tvFinalize_eq] at hdone
          obtain rfl := Except.ok.inj hdone
          rw [hpkg] at hcur
          simp only [tvRecOk] at hcur
          simp [tvInv, tvRecOk, List.all_append, hcomp, fieldsAllStr_fresh,
            tvFinalize_allStr hcur st.refs]
        · cases h
      · -- with no open package: a fresh one is opened
        obtain rfl := Except.ok.inj h
        simp [tvInv, tvRecOk, hcomp, fieldsAllStr_fresh]
    · -- an ordinary line
      split at h
      · obtain rfl := Except.ok.inj h
        exact hinv
      · rename_i package hpkg
        rw [hpkg] at hcur
        simp only [tvRecOk] at hcur
        obtain rfl := Except.ok.inj h
        simp [tvInv, tvRecOk, hcomp, fieldsAllStr_applyTagMap _ _ hcur]

lemma tvFold_inv :
    ∀ (lines : List String) {st st' : TvState},
      List.foldlM tvLine st lines = .ok st' → tvInv st = true → tvInv st' = true := by
  intro lines
  induction lines with
  | nil =>
    intro st st' h hinv
    obtain rfl : st = st' := Except.ok.inj h
    exact hinv
  | cons l t ih =>
    intro st st' h hinv
    rw [List.foldlM_cons] at h
    cases hl : tvLine st l with
    | error e => rw [hl] at h; cases h
    | ok st1 =>
      rw [hl] at h
      exact ih h (tvLine_inv hl hinv)

lemma startsWith_packageName_not_skip {l : String}
    (h : pyStartsWith l "PackageName:" = true) :
    ¬(l = "" ∨ pyStartsWith l "#" = true) := by
  unfold pyStartsWith at h
  cases hd : l.data with
  | nil => rw [hd] at h; cases h
  | cons c t =>
    rw [hd] at h
    have h2 : ('P' == c && List.isPrefixOf "ackageName:".data t) = true := h
    simp only [Bool.and_eq_true, beq_iff_eq] at h2
    rintro (hl | hp)
    · subst hl
      have hnil : ([] : List Char) = c :: t := hd
      cases hnil
    · unfold pyStartsWith at hp
      rw [hd] at hp
      have hp2 : ('#' == c && List.isPrefixOf ([] : List Char) t) = true := hp
      simp only [Bool.and_eq_true, beq_iff_eq] at hp2
      have : '#' = 'P' := hp2.1.trans h2.1.symm
      cases this

lemma jsonPackageRecord_shape {pkg : Json} {r : PyDict}
    (h : jsonPackageRecord pkg = .ok r) :
    ∃ kvs supplier pml, pkg = .obj kvs
      ∧ pyCleanSupplier (dictGet kvs "supplier" (.str "N/A")) = .ok supplier
      ∧ extract_package_manager_locator (dictGet kvs "externalRefs" (.arr []))
          = .ok pml
      ∧ r = [("SPDX_ID", dictGet kvs "SPDXID" (.str "N/A")),
             ("Name", dictGet kvs "name" (.str "N/A")),
             ("Version", dictGet kvs "versionInfo" (.str "N/A")),
             ("Supplier", supplier),
             ("License_Declared", dictGet kvs "licenseDeclared" (.str "N/A")),
             ("Copyright_Text", dictGet kvs "copyrightText" (.str "N/A")),
             ("Download_Location", dictGet kvs "downloadLocation" (.str "N/A")),
             ("Homepage", dictGet kvs "homepage" (.str "N/A")),
             ("Description", dictGet kvs "description" (.str "N/A")),
             ("Package_Manager_Locator", pml)] := by
  cases pkg with
  | obj kvs =>
    simp only [jsonPackageRecord] at h
    cases hs : pyCleanSupplier (dictGet kvs "supplier" (.str "N/A")) with
    | error e => rw [hs] at h; cases h
    | ok supplier =>
      rw [hs] at h
      cases hp : extract_package_manager_locator
          (dictGet kvs "externalRefs" (.arr [])) with
      | error e => rw [hp] at h; cases h
      | ok pml =>
        rw [hp] at h
        exact ⟨kvs, supplier, pml, rfl, hs, hp, (Except.ok.inj h).symm⟩
  | null => exact Except.noConfusion h
  | bool b => exact Except.noConfusion h
  | num n => exact Except.noConfusion h
  | str s => exact Except.noConfusion h
  | arr l => exact Except.noConfusion h

/-- C2: `clean_supplier` returns empty or sentinel input unchanged, strips
the first matching supplier-type tag (`Organization:`, `Person:`, `Tool:`,
in that order) and trims the remainder, and otherwise returns the trimmed
input; it agrees with the spec's examples and is a total function. -/
theorem clean_supplier_matches_spec :
    (∀ raw, clean_supplier raw = clean_supplier_spec raw)
    ∧ clean_supplier "Organization: Acme Corp" = "Acme Corp"
    ∧ clean_supplier "Acme Corp" = "Acme Corp"
    ∧ clean_supplier "N/A" = "N/A" := by
  refine ⟨fun raw => ?_, by rfl, by rfl, by rfl⟩
  simp only [clean_supplier, clean_supplier_spec, supplierTags, stripSupplierTag]

/-- C3: the aggregator normalises each category to upper case with
underscores made hyphens, keeps exactly the `PACKAGE-MANAGER` refs, joins
their locators in input order with `"; "`, and returns the sentinel when
none are kept; in particular on the spec's example. -/
theorem extract_pml_matches_spec :
    (∀ refs : List (String × String),
      extract_package_manager_locator (.arr (refs.map refPairJson)) =
        .ok (.str (aggregate_locators_spec refs)))
    ∧ extract_package_manager_locator (.arr
        [.obj [("referenceCategory", .str "PACKAGE_MANAGER"),
               ("referenceLocator", .str "pkg:npm/left-pad@1.3.0")],
         .obj [("referenceCategory", .str "SECURITY"),
               ("referenceLocator", .str "x")]])
      = .ok (.str "pkg:npm/left-pad@1.3.0") := by
  exact ⟨fun refs => extract_pml_matched (refPairJson_matches refs), by rfl⟩

/-- C10: a ref whose normalised category is `PACKAGE-MANAGER` but which
has no locator key contributes the literal `"N/A"` segment to the joined
aggregate, while a ref with no category key is excluded. -/
theorem extract_pml_defaults (loc2 : String) :
    extract_package_manager_locator (.arr
      [.obj [("referenceCategory", .str "PACKAGE_MANAGER")],
       .obj [("referenceType", .str "purl")],
       .obj [("referenceCategory", .str "PACKAGE-MANAGER"),
             ("referenceLocator", .str loc2)]])
    = .ok (.str ("N/A; " ++ loc2)) := by
  rfl

/-- C4: the dispatcher selects the extractor by the path's lower-cased
extension — `.json` routes to the JSON extractor, `.spdx`/`.tv` to the
tag-value extractor, `.xml` to the XML extractor — and any other
extension fails with an error naming that extension and no output. -/
theorem parse_sbom_dispatch (path : String) (content : FileContent) :
    (pyLower (pySplitextExt path) = ".json" →
      parse_sbom path content = parse_spdx_json content.json)
    ∧ ((pyLower (pySplitextExt path) = ".spdx" ∨ pyLower (pySplitextExt path) = ".tv") →
      parse_sbom path content = parse_spdx_tv content.lines)
    ∧ (pyLower (pySplitextExt path) = ".xml" →
      parse_sbom path content = parse_spdx_xml content.xml)
    ∧ (pyLower (pySplitextExt path) ≠ ".json" →
       pyLower (pySplitextExt path) ≠ ".spdx" →
       pyLower (pySplitextExt path) ≠ ".tv" →
       pyLower (pySplitextExt path) ≠ ".xml" →
      parse_sbom path content =
        .error (.unsupportedFormat (pyLower (pySplitextExt path)))) := by
  refine ⟨fun h => ?_, fun h => ?_, fun h => ?_, fun h1 h2 h3 h4 => ?_⟩
  · simp [parse_sbom, h]
  · rcases h with h | h <;> simp [parse_sbom, h]
  · simp [parse_sbom, h]
  · simp [parse_sbom, h1, h2, h3, h4]

/-- Witness for C4 at a concrete unsupported path. -/
theorem parse_sbom_dispatch_witness :
    parse_sbom "sbom.YAML" ⟨[], none, none⟩ =
      .error (.unsupportedFormat ".yaml") :=
  (parse_sbom_dispatch "sbom.YAML" ⟨[], none, none⟩).2.2.2
    (by decide) (by decide) (by decide) (by decide)

/-- C6: a `.json` input that is not decodable as an object — invalid JSON
text, or a decodable top level that is not an object — fails with the
malformed-input error and produces no records. -/
theorem parse_spdx_json_malformed :
    parse_spdx_json none = .error .malformedInput
    ∧ ∀ v : Json, (∀ kvs, v ≠ .obj kvs) →
      parse_spdx_json (some v) = .error .malformedInput := by
  refine ⟨rfl, fun v hv => ?_⟩
  cases v with
  | obj kvs => exact absurd rfl (hv kvs)
  | null => rfl
  | bool b => rfl
  | num n => rfl
  | str s => rfl
  | arr l => rfl

/-- Witness for C6 at a concrete non-object top level. -/
theorem parse_spdx_json_malformed_witness :
    parse_spdx_json (some (.arr [])) = .error .malformedInput :=
  parse_spdx_json_malformed.2 (.arr []) (fun _ h => Json.noConfusion h)

/-- C9: a well-formed top-level object with no `packages` key yields an
empty record sequence rather than failing. -/
theorem parse_spdx_json_no_packages (kvs : List (String × Json))
    (h : dictLookup kvs "packages" = none) :
    parse_spdx_json (some (.obj kvs)) = .ok [] := by
  simp [parse_spdx_json, dictGet, h, pyForCollect]

/-- Witness for C9 at a concrete packages-free document. -/
theorem parse_spdx_json_no_packages_witness :
    parse_spdx_json (some (.obj [("spdxVersion", Json.str "SPDX-2.3")])) = .ok [] :=
  parse_spdx_json_no_packages [("spdxVersion", Json.str "SPDX-2.3")] rfl

/-- C8: a reference child element that is present but carries no text
makes XML extraction fail (Python `None.strip()`), while an entirely
absent child yields the empty string; shown on a concrete well-formed
document with an empty `referenceCategory` element. -/
theorem xml_empty_ref_child_fails :
    (∀ tag ch, xmlRefText (some (XmlElement.mk tag none ch)) = .error .typeError)
    ∧ xmlRefText none = .ok ""
    ∧ parse_spdx_xml (some (.mk "spdx" none
        [.mk "packages" none
          [.mk "name" (some "pkg") [],
           .mk "externalRefs" none [.mk "referenceCategory" none []]]]))
      = .error .typeError :=
  ⟨fun _ _ => rfl, rfl, rfl⟩

/-- C5: a `PackageName:` line finalizes the open package (aggregating its
accumulated refs into its locator field and appending the record), opens
a fresh record with all fields sentinel-filled except the name, and
resets the refs accumulator; the same line with no open package only
opens; at end of input an open package is finalized the same way; and on
a concrete input two consecutive `PackageName:` lines produce two
separate records with no field of the first leaking into the second. -/
theorem tv_package_boundaries :
    (∀ (st : TvState) (line : String) (package : PyDict),
      pyStartsWith (pyStrip line) "PackageName:" = true →
      st.current = some package →
      tvLine st line = .ok ⟨st.components ++
          [dictSet package "Package_Manager_Locator" (.str (tvAgg st.refs))],
        some (freshTvRecord (pyStrip (afterFirstColon (pyStrip line)))), []⟩)
    ∧ (∀ (st : TvState) (line : String),
      pyStartsWith (pyStrip line) "PackageName:" = true →
      st.current = none →
      tvLine st line = .ok ⟨st.components,
        some (freshTvRecord (pyStrip (afterFirstColon (pyStrip line)))), []⟩)
    ∧ (∀ (lines : List String) (st : TvState) (package : PyDict),
      List.foldlM tvLine ⟨[], none, []⟩ lines = .ok st →
      st.current = some package →
      parse_spdx_tv lines = .ok (st.components ++
        [dictSet package "Package_Manager_Locator" (.str (tvAgg st.refs))]))
    ∧ parse_spdx_tv twoPackageLines =
        .ok [twoPackageFirst, freshTvRecord "pkg-two"] := by
  refine ⟨?_, ?_, ?_, by rfl⟩
  · intro st line package hpn hcur
    have hskip := startsWith_packageName_not_skip hpn
    simp only [tvLine, if_neg hskip, if_pos hpn, hcur, tvFinalize_eq]
  · intro st line hpn hcur
    have hskip := startsWith_packageName_not_skip hpn
    simp only [tvLine, if_neg hskip, if_pos hpn, hcur]
  · intro lines st package hfold hcur
    simp only [parse_spdx_tv, hfold, hcur, tvFinalize_eq]

/-- Witness for C5 at a concrete scan state and line. -/
theorem tv_package_boundaries_witness :
    tvLine ⟨[], some (freshTvRecord "pkg-one"), []⟩ "PackageName: pkg-two" =
      .ok ⟨[freshTvRecord "pkg-one"], some (freshTvRecord "pkg-two"), []⟩ :=
  tv_package_boundaries.1 ⟨[], some (freshTvRecord "pkg-one"), []⟩
    "PackageName: pkg-two" (freshTvRecord "pkg-one") rfl rfl

/-- C1 (amended): every record produced by any of the three extractors has
all ten fields present (never omitted); the tag-value and XML extractors
always bind them to strings, hence non-null; the JSON extractor binds
them to strings provided the source packages bind their recognised scalar
fields to strings when they bind them at all — a field explicitly bound
to null in the source is passed through as the record's value; and
all-string fields are in particular all present. -/
theorem record_fields :
    (∀ (kvs : List (String × Json)) (comps : List PyDict),
      parse_spdx_json (some (.obj kvs)) = .ok comps →
      ∀ r ∈ comps, fieldsPresent r = true)
    ∧ (∀ (kvs : List (String × Json)) (comps : List PyDict),
      jsonScalarsWellTyped kvs = true →
      parse_spdx_json (some (.obj kvs)) = .ok comps →
      ∀ r ∈ comps, fieldsAllStr r = true)
    ∧ (∀ (lines : List String) (comps : List PyDict),
      parse_spdx_tv lines = .ok comps →
      ∀ r ∈ comps, fieldsAllStr r = true)
    ∧ (∀ (root : XmlElement) (comps : List PyDict),
      parse_spdx_xml (some root) = .ok comps →
      ∀ r ∈ comps, fieldsAllStr r = true)
    ∧ (∀ r : PyDict, fieldsAllStr r = true → fieldsPresent r = true) := by
  refine ⟨?_, ?_, ?_, ?_, ?_⟩
  · -- JSON: all ten keys always present
    intro kvs comps h r hr
    simp only [parse_spdx_json] at h
    split at h
    · obtain ⟨pkg, hmem, hrec⟩ := pyForCollect_mem h r hr
      obtain ⟨kvs2, supplier, pml, rfl, hs, hp, rfl⟩ := jsonPackageRecord_shape hrec
      rfl
    · obtain rfl := Except.ok.inj h; cases hr
    · obtain rfl := Except.ok.inj h; cases hr
    · cases h
  · -- JSON: all string under the scalar-typing hypothesis
    intro kvs comps hwt h r hr
    simp only [parse_spdx_json] at h
    split at h
    · rename_i packages hpk
      obtain ⟨pkg, hmem, hrec⟩ := pyForCollect_mem h r hr
      obtain ⟨kvs2, supplier, pml, rfl, hs, hp, rfl⟩ := jsonPackageRecord_shape hrec
      unfold jsonScalarsWellTyped at hwt
      rw [hpk] at hwt
      have hpkg := List.all_eq_true.mp hwt _ hmem
      simp only [pkgScalarsStr] at hpkg
      have hkey := fun k hk => isStrVal_some (List.all_eq_true.mp hpkg k hk)
      obtain ⟨s1, e1⟩ := hkey "SPDXID" (by simp [jsonScalarKeys])
      obtain ⟨s2, e2⟩ := hkey "name" (by simp [jsonScalarKeys])
      obtain ⟨s3, e3⟩ := hkey "versionInfo" (by simp [jsonScalarKeys])
      obtain ⟨s4, e4⟩ := hkey "supplier" (by simp [jsonScalarKeys])
      obtain ⟨s5, e5⟩ := hkey "licenseDeclared" (by simp [jsonScalarKeys])
      obtain ⟨s6, e6⟩ := hkey "copyrightText" (by simp [jsonScalarKeys])
      obtain ⟨s7, e7⟩ := hkey "downloadLocation" (by simp [jsonScalarKeys])
      obtain ⟨s8, e8⟩ := hkey "homepage" (by simp [jsonScalarKeys])
      obtain ⟨s9, e9⟩ := hkey "description" (by simp [jsonScalarKeys])
      rw [e4] at hs
      have hsup : Except.ok (Json.str (clean_supplier s4)) = Except.ok supplier := hs
      obtain rfl := (Except.ok.inj hsup).symm
      obtain ⟨s10, rfl⟩ := pml_ok_str _ _ hp
      rw [e1, e2, e3, e5, e6, e7, e8, e9]
      rfl
    · obtain rfl := Except.ok.inj h; cases hr
    · obtain rfl := Except.ok.inj h; cases hr
    · cases h
  · -- tag-value: all string, unconditionally
    intro lines comps h r hr
    simp only [parse_spdx_tv] at h
    split at h
    · rename_i st hfold
      have hinv := tvFold_inv lines hfold tvInv_init
      simp only [tvInv, Bool.and_eq_true] at hinv
      obtain ⟨hcomp, hcur⟩ := hinv
      split at h
      · rename_i package hpkg
        split at h
        · rename_i done hdone
          obtain rfl := Except.ok.inj h
          rw [tvFinalize_eq] at hdone
          obtain rfl := Except.ok.inj hdone
          rw [hpkg] at hcur
          simp only [tvRecOk] at hcur
          rcases List.mem_append.mp hr with hr' | hr'
          · exact List.all_eq_true.mp hcomp r hr'
          · obtain rfl := List.mem_singleton.mp hr'
            exact tvFinalize_allStr hcur st.refs
        · cases h
      · obtain rfl := Except.ok.inj h
        exact List.all_eq_true.mp hcomp r hr
    · cases h
  · -- XML: all string, unconditionally
    intro root comps h r hr
    simp only [parse_spdx_xml] at h
    obtain ⟨pkg, hmem, hrec⟩ := pyForCollect_mem h r hr
    simp only [xmlPackageRecord] at hrec
    split at hrec
    · split at hrec
      · rename_i refs hrefs pml hpml
        obtain ⟨s, rfl⟩ := pml_ok_str _ _ hpml
        obtain rfl := Except.ok.inj hrec
        rfl
      · cases hrec
    · cases hrec
  · -- all-string fields are present
    intro r h
    refine List.all_eq_true.mpr fun k hk => ?_
    have hs := List.all_eq_true.mp h k hk
    cases hv : dictLookup r k with
    | none => rw [hv] at hs; cases hs
    | some v => simp [hv]

/-- Counterexample to C1 as stated: a package field explicitly bound to
null in the JSON source yields a record whose `Name` value is null. -/
theorem record_fields_counterexample :
    parse_spdx_json (some nullNameDoc) = .ok [nullNameRecord]
    ∧ dictLookup nullNameRecord "Name" = some Json.null :=
  ⟨rfl, rfl⟩

/-- Witness for C1 (amended) at concrete inputs for all three extractors. -/
theorem record_fields_witness :
    fieldsPresent strNameRecord = true
    ∧ fieldsAllStr strNameRecord = true
    ∧ fieldsAllStr (freshTvRecord "pkg-a") = true
    ∧ fieldsAllStr strNameXmlRecord = true :=
  ⟨record_fields.1 strNameDoc [strNameRecord] rfl strNameRecord
      (List.mem_singleton.mpr rfl),
   record_fields.2.1 strNameDoc [strNameRecord] rfl rfl strNameRecord
      (List.mem_singleton.mpr rfl),
   record_fields.2.2.1 ["PackageName: pkg-a"] [freshTvRecord "pkg-a"] rfl
      (freshTvRecord "pkg-a") (List.mem_singleton.mpr rfl),
   record_fields.2.2.2.1 strNameXml [strNameXmlRecord] rfl strNameXmlRecord
      (List.mem_singleton.mpr rfl)⟩

lemma strMkData (s : String) : (⟨s.data⟩ : String) = s := rfl

lemma csvNoQuote_chars {cs : List Char} (h : csvNeedsQuote cs = false) :
    ∀ c ∈ cs, c ≠ ',' ∧ c ≠ '"' ∧ c ≠ '\r' ∧ c ≠ '\n' := by
  intro c hc
  have hfalse : (c == ',' || c == '"' || c == '\r' || c == '\n') = false := by
    cases hb : (c == ',' || c == '"' || c == '\r' || c == '\n') with
    | false => rfl
    | true =>
      have : csvNeedsQuote cs = true := List.any_eq_true.mpr ⟨c, hc, hb⟩
      rw [h] at this
      cases this
  simp only [Bool.or_eq_false_iff, beq_eq_false_iff_ne] at hfalse
  exact ⟨hfalse.1.1.1, hfalse.1.1.2, hfalse.1.2, hfalse.2⟩

lemma csvAux_start {c : Char} (t : List Char) (h1 : c ≠ '\r') (h2 : c ≠ '\n') :
    csvAux (c :: t) .plain none = csvAux (c :: t) .plain (some ([], [])) := by
  by_cases hc : c = ','
  · subst hc; simp [csvAux]
  · by_cases hq : c = '"'
    · subst hq; simp [csvAux]
    · simp [csvAux, h1, h2, hc, hq]

lemma csvAux_plain_char {c : Char} (t facc : List Char) (racc : List String)
    (h1 : c ≠ ',') (h2 : c ≠ '"') (h3 : c ≠ '\r') (h4 : c ≠ '\n') :
    csvAux (c :: t) .plain (some (facc, racc)) =
      csvAux t .plain (some (c :: facc, racc)) := by
  simp [csvAux, h1, h2, h3, h4]

lemma csvAux_plain_quoteStart (t : List Char) (racc : List String) :
    csvAux ('"' :: t) .plain (some ([], racc)) =
      csvAux t .quoted (some ([], racc)) := by
  simp [csvAux]

lemma csvAux_quoted_char {c : Char} (t facc : List Char) (racc : List String)
    (h : c ≠ '"') :
    csvAux (c :: t) .quoted (some (facc, racc)) =
      csvAux t .quoted (some (c :: facc, racc)) := by
  simp [csvAux, h]

lemma csvAux_quoted_quote (t facc : List Char) (racc : List String) :
    csvAux ('"' :: t) .quoted (some (facc, racc)) =
      csvAux t .afterQuote (some (facc, racc)) := by
  simp [csvAux]

lemma csvAux_afterQuote_quote (t facc : List Char) (racc : List String) :
    csvAux ('"' :: t) .afterQuote (some (facc, racc)) =
      csvAux t .quoted (some ('"' :: facc, racc)) := by
  simp [csvAux]

lemma csvAux_plain_comma (t facc : List Char) (racc : List String) :
    csvAux (',' :: t) .plain (some (facc, racc)) =
      csvAux t .plain (some ([], (⟨facc.reverse⟩ : String) :: racc)) := by
  simp [csvAux]

lemma csvAux_afterQuote_comma (t facc : List Char) (racc : List String) :
    csvAux (',' :: t) .afterQuote (some (facc, racc)) =
      csvAux t .plain (some ([], (⟨facc.reverse⟩ : String) :: racc)) := by
  simp [csvAux]

lemma csvAux_plain_crlf (t facc : List Char) (racc : List String) :
    csvAux ('\r' :: '\n' :: t) .plain (some (facc, racc)) =
      (((⟨facc.reverse⟩ : String) :: racc).reverse) :: csvAux t .plain none := by
  simp [csvAux]

lemma csvAux_afterQuote_crlf (t facc : List Char) (racc : List String) :
    csvAux ('\r' :: '\n' :: t) .afterQuote (some (facc, racc)) =
      (((⟨facc.reverse⟩ : String) :: racc).reverse) :: csvAux t .plain none := by
  simp [csvAux]

lemma csvAux_unquoted (f : List Char)
    (hf : ∀ c ∈ f, c ≠ ',' ∧ c ≠ '"' ∧ c ≠ '\r' ∧ c ≠ '\n') :
    ∀ (rest : List Char) (facc : List Char) (racc : List String),
      csvAux (f ++ rest) .plain (some (facc, racc)) =
        csvAux rest .plain (some (f.reverse ++ facc, racc)) := by
  induction f with
  | nil => intro rest facc racc; simp
  | cons c fs ih =>
    intro rest facc racc
    obtain ⟨h1, h2, h3, h4⟩ := hf c (List.mem_cons_self c fs)
    rw [List.cons_append, csvAux_plain_char _ _ _ h1 h2 h3 h4,
      ih (fun d hd => hf d (List.mem_cons_of_mem c hd))]
    simp [List.append_assoc]

lemma csvAux_quotedPart (f : List Char) :
    ∀ (rest : List Char) (facc : List Char) (racc : List String),
      csvAux (csvEscQ f ++ '"' :: rest) .quoted (some (facc, racc)) =
        csvAux rest .afterQuote (some (f.reverse ++ facc, racc)) := by
  induction f with
  | nil =>
    intro rest facc racc
    rw [show csvEscQ [] ++ '"' :: rest = '"' :: rest from rfl,
      csvAux_quoted_quote]
    simp
  | cons c fs ih =>
    intro rest facc racc
    by_cases hc : c = '"'
    · subst hc
      rw [show csvEscQ ('"' :: fs) ++ '"' :: rest =
          '"' :: '"' :: (csvEscQ fs ++ '"' :: rest) from rfl,
        csvAux_quoted_quote, csvAux_afterQuote_quote, ih]
      simp [List.append_assoc]
    · rw [show csvEscQ (c :: fs) ++ '"' :: rest =
          c :: (csvEscQ fs ++ '"' :: rest) from by simp [csvEscQ, hc],
        csvAux_quoted_char _ _ _ hc, ih]
      simp [List.append_assoc]

lemma csvAux_comma (f : String) (rest : List Char) (racc : List String) :
    csvAux (csvField f ++ ',' :: rest) .plain (some ([], racc)) =
      csvAux rest .plain (some ([], f :: racc)) := by
  by_cases hq : csvNeedsQuote f.data = true
  · rw [show csvField f ++ ',' :: rest =
        '"' :: (csvEscQ f.data ++ '"' :: ',' :: rest) from by
      simp [csvField, hq, List.append_assoc],
      csvAux_plain_quoteStart, csvAux_quotedPart, csvAux_afterQuote_comma]
    simp [strMkData]
  · rw [show csvField f ++ ',' :: rest = f.data ++ ',' :: rest from by
      simp [csvField, hq],
      csvAux_unquoted f.data (csvNoQuote_chars (by simpa using hq)),
      csvAux_plain_comma]
    simp [strMkData]

lemma csvAux_crlf (f : String) (rest : List Char) (racc : List String) :
    csvAux (csvField f ++ '\r' :: '\n' :: rest) .plain (some ([], racc)) =
      (racc.reverse ++ [f]) :: csvAux rest .plain none := by
  by_cases hq : csvNeedsQuote f.data = true
  · rw [show csvField f ++ '\r' :: '\n' :: rest =
        '"' :: (csvEscQ f.data ++ '"' :: '\r' :: '\n' :: rest) from by
      simp [csvField, hq, List.append_assoc],
      csvAux_plain_quoteStart, csvAux_quotedPart, csvAux_afterQuote_crlf]
    simp [strMkData]
  · rw [show csvField f ++ '\r' :: '\n' :: rest =
        f.data ++ '\r' :: '\n' :: rest from by simp [csvField, hq],
      csvAux_unquoted f.data (csvNoQuote_chars (by simpa using hq)),
      csvAux_plain_crlf]
    simp [strMkData]

lemma csvAux_row (fs : List String) :
    ∀ (f : String) (rest : List Char) (racc : List String),
      csvAux (csvJoinFields ((f :: fs).map csvField) ++ '\r' :: '\n' :: rest) .plain
          (some ([], racc)) =
        (racc.reverse ++ f :: fs) :: csvAux rest .plain none := by
  induction fs with
  | nil =>
    intro f rest racc
    simpa using csvAux_crlf f rest racc
  | cons g gs ih =>
    intro f rest racc
    have hjoin : csvJoinFields ((f :: g :: gs).map csvField) =
        csvField f ++ ',' :: csvJoinFields ((g :: gs).map csvField) := rfl
    rw [hjoin, List.append_assoc, List.cons_append, csvAux_comma, ih]
    simp

lemma csvRow_head (f g : String) (gs : List String) (tail : List Char) :
    ∃ c t, csvJoinFields ((f :: g :: gs).map csvField) ++ tail = c :: t
      ∧ c ≠ '\r' ∧ c ≠ '\n' := by
  have hjoin : csvJoinFields ((f :: g :: gs).map csvField) =
      csvField f ++ ',' :: csvJoinFields ((g :: gs).map csvField) := rfl
  cases hf : csvField f with
  | nil =>
    refine ⟨',', csvJoinFields ((g :: gs).map csvField) ++ tail, ?_, by decide, by decide⟩
    simp [hjoin, hf, csvJoinFields]
  | cons c cs =>
    refine ⟨c, cs ++ ',' :: csvJoinFields ((g :: gs).map csvField) ++ tail, ?_, ?_, ?_⟩
    · simp [hjoin, hf, csvJoinFields, List.append_assoc]
    · by_cases hq : csvNeedsQuote f.data
      · simp only [csvField, if_pos hq] at hf
        obtain rfl : '"' = c := (List.cons.inj hf).1
        decide
      · simp only [csvField, if_neg (by simp [hq] : ¬csvNeedsQuote f.data = true)] at hf
        have hmem : c ∈ f.data := by rw [hf]; exact List.mem_cons_self c cs
        exact (csvNoQuote_chars (Bool.not_eq_true _ ▸ hq) c hmem).2.2.1
    · by_cases hq : csvNeedsQuote f.data
      · simp only [csvField, if_pos hq] at hf
        obtain rfl : '"' = c := (List.cons.inj hf).1
        decide
      · simp only [csvField, if_neg (by simp [hq] : ¬csvNeedsQuote f.data = true)] at hf
        have hmem : c ∈ f.data := by rw [hf]; exact List.mem_cons_self c cs
        exact (csvNoQuote_chars (Bool.not_eq_true _ ▸ hq) c hmem).2.2.2

lemma csvAux_doc (rows : List (List String)) :
    (∀ row ∈ rows, ∃ f g gs, row = f :: g :: gs) →
    csvAux (rows.foldr (fun row acc => csvRowChars row ++ acc) []) .plain none
      = rows := by
  induction rows with
  | nil => intro _; rfl
  | cons row rows ih =>
    intro hrows
    obtain ⟨f, g, gs, hrow⟩ := hrows row (List.mem_cons_self row rows)
    subst hrow
    have hshape : csvRowChars (f :: g :: gs) ++
          (rows.foldr (fun row acc => csvRowChars row ++ acc) []) =
        csvJoinFields ((f :: g :: gs).map csvField) ++ '\r' :: '\n' ::
          (rows.foldr (fun row acc => csvRowChars row ++ acc) []) := by
      simp [csvRowChars, List.append_assoc]
    obtain ⟨c, t, heq, h1, h2⟩ := csvRow_head f g gs
      ('\r' :: '\n' :: rows.foldr (fun row acc => csvRowChars row ++ acc) [])
    simp only [List.foldr_cons, hshape, heq]
    rw [csvAux_start t h1 h2, ← heq, csvAux_row]
    simp only [List.reverse_nil, List.nil_append, List.cons.injEq, true_and]
    exact ih fun r hr => hrows r (List.mem_cons_of_mem _ hr)

/-- C7: writing any record sequence with the tabular serializer — one
header row of the ten field names in canonical order, then one row per
record in input order — and re-reading the delimited file reproduces the
same ten field values per row, in the same row order. -/
theorem save_csv_roundtrip (components : List ComponentRecord) :
    csvParse (save_to_csv components) = fieldnames :: components.map recordRow := by
  unfold csvParse save_to_csv
  apply csvAux_doc
  intro row hr
  rcases List.mem_cons.mp hr with rfl | hr'
  · exact ⟨"SPDX_ID", "Name", _, rfl⟩
  · obtain ⟨r, _, rfl⟩ := List.mem_map.mp hr'
    exact ⟨r.spdxId, r.name, _, rfl⟩

end SpdxSbom
